import Mathlib

/-!
Verification of the workflow supervision layer of `sos_notebook/workflow_executor.py`:
the single-concurrency workflow queue (`run_sos_workflow`), the cancellation path
(`cancel_workflow`) and the out-of-process worker wrapper (`Tapped_Executor.run`).

The Python state is embedded shallowly:

* `g_workflow_queue` is an `OrderedDict` from cell id to either a pending tuple
  `(code, raw_args, env.config)` or a started `Tapped_Executor` handle.  We model it
  as an ordered association list `List (String × Entry)`; `OrderedDict.__setitem__`
  (replace in place, or append to the tail for a fresh key) is `odSet`, and
  `OrderedDict.pop` is `odPop`.
* The third component of a pending tuple is the *reference* to the single global
  `env.config` dict (line 246 stores `env.config` itself, no copy is taken), so every
  pending entry aliases the same mutable dict.  We model that dict as the
  `envConfig : EnvConfig` field of the supervisor state; dereferencing the tuple's
  config component yields the current value of that field (see `pendingPayload`).
  `env.config['slave_id'] = cell_id` performed at promotion is a mutation of this
  shared dict.
* OS nondeterminism is made explicit: `dead` is the set of worker pids whose OS
  process has exited (the combined `is_alive() and psutil.pid_exists(pid)` check is
  `aliveIn`), `spawnOk` says whether `Tapped_Executor.start()` succeeds, and `killOk`
  says whether the process is actually gone after `kill_all_subprocesses` +
  `terminate()` (i.e. whether the re-check `psutil.pid_exists(proc.pid)` is false).
* A raised Python exception is the `some msg` component of the returned pair; the
  state component records the globals as they stand when the exception propagates.
-/

/-- The global `env.config` dict.  The supervisor itself only ever writes the
`slave_id` key (line 256); all other keys are abstracted into `rest`. -/
structure EnvConfig where
  slave_id : String
  rest : Nat
deriving DecidableEq

/-- One slot of `g_workflow_queue`: either the pending tuple
`(code, raw_args, env.config)` — the config component being the shared reference
to the global `env.config`, hence not stored per entry — or a started
`Tapped_Executor`, identified by its OS pid. -/
inductive Entry where
  | tuple (code raw_args : String)
  | proc (pid : Nat)
deriving DecidableEq

def isTuple : Entry → Bool
  | .tuple _ _ => true
  | .proc _ => false

def isProc : Entry → Bool
  | .tuple _ _ => false
  | .proc _ => true

/-- Messages sent to the frontend with `kernel.send_frontend_msg('workflow_status', ...)`.
`pending cid n` carries the `'#<n> in queue'` position message (line 262);
`aborted cid` is the cancellation notice (line 273).  The `failed` form exists in
the frontend protocol but is never produced by the supervisor code. -/
inductive FrontendMsg where
  | pending (cell_id : String) (position : Nat)
  | aborted (cell_id : String)
  | failed (cell_id : String) (reason : String)
deriving DecidableEq

/-- The supervisor's mutable globals plus the visible OS facts. -/
structure SupState where
  /-- `g_workflow_queue` -/
  queue : List (String × Entry)
  /-- the single global `env.config` dict that all pending tuples alias -/
  envConfig : EnvConfig
  /-- pids of worker processes that have exited -/
  dead : List Nat
  /-- next fresh pid handed out by the OS on a successful spawn -/
  nextPid : Nat
  /-- frontend `workflow_status` messages, in send order -/
  msgs : List FrontendMsg
deriving DecidableEq

/-- `y.is_alive() and psutil.pid_exists(y.pid)`: both become false once the worker
process has exited. -/
def aliveIn (dead : List Nat) (pid : Nat) : Bool :=
  !(dead.contains pid)

/-- `cell_id in g_workflow_queue`. -/
def containsKey (q : List (String × Entry)) (k : String) : Bool :=
  q.any (fun p => p.fst == k)

/-- `OrderedDict.__setitem__`: replace the (unique) existing slot in place,
otherwise append at the tail. -/
def odSet : List (String × Entry) → String → Entry → List (String × Entry)
  | [], k, v => [(k, v)]
  | p :: rest, k, v => if p.fst == k then (k, v) :: rest else p :: odSet rest k v

/-- `OrderedDict.pop`: remove the (unique) slot of the key. -/
def odPop : List (String × Entry) → String → List (String × Entry)
  | [], _ => []
  | p :: rest, k => if p.fst == k then rest else p :: odPop rest k

/-- Lines 248-250: rebuild the queue keeping pending tuples and live workers:
`isinstance(y, tuple) or (y.is_alive() and psutil.pid_exists(y.pid))`. -/
def pruneQueue (dead : List Nat) (q : List (String × Entry)) : List (String × Entry) :=
  q.filter (fun p =>
    match p.snd with
    | .tuple _ _ => true
    | .proc pid => aliveIn dead pid)

/-- `list(g_workflow_queue.keys()).index(cell_id)` (line 266). -/
def keyIdx (q : List (String × Entry)) (k : String) : Nat :=
  q.findIdx (fun p => p.fst == k)

/-- `cancel_workflow(cell_id, kernel)` (lines 270-287).  It unconditionally sends the
`aborted` status, returns if the id is absent, and otherwise: for a started worker
that is still alive it tree-kills and terminates it, re-checks
`psutil.pid_exists` (`killOk` says the process is really gone) and raises
`RuntimeError('Failed to kill workflow')` if not — in which case the final
`g_workflow_queue.pop` is never reached; in every other case it pops the entry. -/
def cancel_workflow (cell_id : String) (killOk : Bool) (s : SupState) :
    SupState × Option String :=
  let s1 : SupState := { s with msgs := s.msgs ++ [.aborted cell_id] }
  if containsKey s1.queue cell_id then
    match List.lookup cell_id s1.queue with
    | none => (s1, none)
    | some entry =>
      match entry with
      | .tuple _ _ => ({ s1 with queue := odPop s1.queue cell_id }, none)
      | .proc pid =>
        if aliveIn s1.dead pid then
          if killOk then
            ({ s1 with dead := pid :: s1.dead, queue := odPop s1.queue cell_id }, none)
          else
            (s1, some "Failed to kill workflow")
        else
          ({ s1 with queue := odPop s1.queue cell_id }, none)
  else
    (s1, none)

/-- `run_sos_workflow(code, raw_args, kernel, ...)` (lines 237-267), with
`cell_id = kernel.cell_id`.  If the id is already queued it first runs
`cancel_workflow` (a raise there propagates).  It then stores the pending tuple
(the config component aliasing the global `env.config`), prunes dead workers,
and if the head of the queue is a pending tuple promotes it: sets
`env.config['slave_id']` to the head's id and starts a `Tapped_Executor`
(`spawnOk` says whether `start()` succeeds; on failure the exception propagates,
the head entry stays a tuple and no status message is sent).  Finally it sends
the `pending` status with the 1-based position of `cell_id` in the queue. -/
def run_sos_workflow (cell_id code raw_args : String) (spawnOk killOk : Bool)
    (s : SupState) : SupState × Option String :=
  match (if containsKey s.queue cell_id then cancel_workflow cell_id killOk s
         else (s, none)) with
  | (s1, some e) => (s1, some e)
  | (s1, none) =>
    let q2 := pruneQueue s1.dead (odSet s1.queue cell_id (.tuple code raw_args))
    let s2 : SupState := { s1 with queue := q2 }
    match q2 with
    | [] => (s2, none)
    | (hcid, hitem) :: _ =>
      match hitem with
      | .tuple _ _ =>
        let s3 : SupState :=
          { s2 with envConfig := { s2.envConfig with slave_id := hcid } }
        if spawnOk then
          let pid := s3.nextPid
          let s4 : SupState :=
            { s3 with nextPid := pid + 1, queue := odSet s3.queue hcid (.proc pid) }
          ({ s4 with
             msgs := s4.msgs ++ [.pending cell_id (keyIdx s4.queue cell_id + 1)] },
           none)
        else
          (s3, some "Tapped_Executor.start failed")
      | .proc _ =>
        ({ s2 with
           msgs := s2.msgs ++ [.pending cell_id (keyIdx s2.queue cell_id + 1)] },
         none)

/-- The initial state: `g_workflow_queue = OrderedDict()` (line 234), no worker
processes yet. -/
def initState : SupState :=
  { queue := [], envConfig := { slave_id := "", rest := 0 }, dead := [], nextPid := 0,
    msgs := [] }

/-- The config observed through a pending tuple's third component: the tuple holds
the reference to the global `env.config`, so dereferencing it yields the current
global value. -/
def pendingPayload (s : SupState) (cell_id : String) :
    Option (String × String × EnvConfig) :=
  match List.lookup cell_id s.queue with
  | some (.tuple code raw_args) => some (code, raw_args, s.envConfig)
  | _ => none

/-! ### The worker wrapper `Tapped_Executor.run` (lines 185-227) -/

/-- The `status` field of a `workflow_status` message sent on the informer socket. -/
inductive WorkerStatus where
  | completed
  | failed (exception : String)
deriving DecidableEq

/-- One `workflow_status` message on the informer (tapping listener) socket:
`{'msg_type': 'workflow_status', 'data': {'cell_id': ..., 'status': ...}}`. -/
structure InformerMsg where
  cell_id : String
  st : WorkerStatus
deriving DecidableEq

/-- Traffic on the stdout (tapping logging) socket: relayed output chunks, and the
`[b'ERROR', str(e)]` multipart message sent from the exception handler. -/
inductive StdoutMsg where
  | chunk (s : String)
  | errorTag (e : String)
deriving DecidableEq

/-- Observable effects of one `Tapped_Executor.run` invocation. -/
structure RunEffects where
  stdoutMsgs : List StdoutMsg
  informerMsgs : List InformerMsg
  socketsClosed : Bool
deriving DecidableEq

/-- `Tapped_Executor.run` (lines 185-227).  `slave_id` is
`env.config['slave_id']` after `env.config.update(self.config)`; `chunks` is the
engine output relayed line-by-line by `pexpect_run` before it finished; `engine`
is the outcome of the fallible body of the `try` block (script-file write plus
`pexpect_run`): `Except.ok ret_code` when `pexpect_run` returns the engine's exit
code, `Except.error e` when an exception `e` was raised.  On return the code
unconditionally sends `completed` — `ret_code` is bound but never inspected; on
an exception it sends `ERROR` on the stdout socket and `failed(str(e))` on the
informer socket.  The `finally` block always closes both sockets. -/
def Tapped_Executor.run (slave_id : String) (chunks : List String)
    (engine : Except String Int) : RunEffects :=
  match engine with
  | .ok _ret_code =>
    { stdoutMsgs := chunks.map .chunk,
      informerMsgs := [⟨slave_id, .completed⟩],
      socketsClosed := true }
  | .error e =>
    { stdoutMsgs := chunks.map .chunk ++ [.errorTag e],
      informerMsgs := [⟨slave_id, .failed e⟩],
      socketsClosed := true }

/-! ### The supervisor transition system: sequences of submit / cancel calls, with
the environment free to let worker processes exit between calls. -/

/-- One step of the supervisor: a `run_sos_workflow` call, a `cancel_workflow`
call (each with the OS nondeterminism for that call made explicit), or a worker
process exiting. -/
inductive Step : SupState → SupState → Prop where
  | submit (s : SupState) (cell_id code raw_args : String) (spawnOk killOk : Bool) :
      Step s (run_sos_workflow cell_id code raw_args spawnOk killOk s).fst
  | cancel (s : SupState) (cell_id : String) (killOk : Bool) :
      Step s (cancel_workflow cell_id killOk s).fst
  | workerExit (s : SupState) (pid : Nat) :
      Step s { s with dead := pid :: s.dead }

/-- States reachable from the initial empty queue by submit / cancel / worker-exit
steps. -/
inductive Reachable : SupState → Prop where
  | init : Reachable initState
  | step {s t : SupState} : Reachable s → Step s t → Reachable t

example : (run_sos_workflow "X" "c" "" true true initState).fst.queue
    = [("X", .proc 0)] := by decide

example : (run_sos_workflow "X" "c" "" true true initState).fst.msgs
    = [.pending "X" 1] := by decide

/-! ### Helper lemmas about the ordered-dict operations -/

lemma containsKey_of_lookup {q : List (String × Entry)} {k : String} {e : Entry}
    (h : List.lookup k q = some e) : containsKey q k = true := by
  induction q with
  | nil => simp [List.lookup] at h
  | cons p t ih =>
    rw [List.lookup] at h
    rcases hpk : (k == p.fst) with _ | _
    · rw [hpk] at h
      simp only [containsKey, List.any_cons, Bool.or_eq_true]
      exact Or.inr (ih h)
    · simp only [containsKey, List.any_cons, Bool.or_eq_true]
      exact Or.inl (by rw [BEq.comm] at hpk; exact hpk)

lemma odSet_mem_self (q : List (String × Entry)) (k : String) (v : Entry) :
    (k, v) ∈ odSet q k v := by
  induction q with
  | nil => simp [odSet]
  | cons p t ih =>
    rw [odSet]
    by_cases hpk : (p.fst == k) = true
    · simp [hpk]
    · simp only [Bool.not_eq_true] at hpk
      simp [hpk, ih]

lemma prune_odSet_tuple_ne_nil (dead : List Nat) (q : List (String × Entry))
    (k c a : String) :
    pruneQueue dead (odSet q k (.tuple c a)) ≠ [] := by
  apply List.ne_nil_of_mem (a := (k, Entry.tuple c a))
  exact List.mem_filter.mpr ⟨odSet_mem_self q k _, rfl⟩

/-! ### C2, C4: the worker wrapper -/

/-- C2: for every invocation of `Tapped_Executor.run`, exactly one terminal status
event (`completed` or `failed`) is sent on the informer channel, it carries the
worker's identity, and if the engine invocation raised an exception `e` the event
is `failed (str e)` — the exception is caught, not propagated. -/
theorem c2_exactly_one_terminal_event (slave_id : String) (chunks : List String)
    (engine : Except String Int) :
    (Tapped_Executor.run slave_id chunks engine).informerMsgs.length = 1
    ∧ (∀ m ∈ (Tapped_Executor.run slave_id chunks engine).informerMsgs,
        m.cell_id = slave_id)
    ∧ (∀ e, engine = Except.error e →
        (Tapped_Executor.run slave_id chunks engine).informerMsgs
          = [⟨slave_id, WorkerStatus.failed e⟩]) := by
  cases engine <;> simp [Tapped_Executor.run]

/-- C2 witness: a worker whose engine invocation raises `"boom"` sends exactly the
single terminal event `failed "boom"`. -/
theorem c2_exactly_one_terminal_event_witness :
    (Tapped_Executor.run "X" [] (Except.error "boom")).informerMsgs
      = [⟨"X", WorkerStatus.failed "boom"⟩] :=
  (c2_exactly_one_terminal_event "X" [] (Except.error "boom")).2.2 "boom" rfl

/-- C4 counterexample: when the engine invocation returns the non-zero exit code 1
(without raising), the worker sends `completed`, not `failed` — the claim that a
non-zero return code yields a `failed(reason)` event (never `completed`) is false. -/
theorem c4_counterexample :
    (Tapped_Executor.run "X" [] (Except.ok 1)).informerMsgs
      = [⟨"X", WorkerStatus.completed⟩]
    ∧ ∀ r, (⟨"X", WorkerStatus.failed r⟩ : InformerMsg)
        ∉ (Tapped_Executor.run "X" [] (Except.ok 1)).informerMsgs := by
  refine ⟨rfl, fun r => ?_⟩
  simp [Tapped_Executor.run]

/-- C4 amended: the worker emits `failed (str e)` exactly when the invocation
raises an exception `e`; when `pexpect_run` returns, `completed` is emitted
regardless of the returned exit code (`ret_code` is bound but never inspected);
in both cases the wrapper terminates normally with its sockets closed, so the
failure never propagates as a crash. -/
theorem c4_amended_return_code_ignored (slave_id : String) (chunks : List String) :
    (∀ ret_code : Int,
      (Tapped_Executor.run slave_id chunks (Except.ok ret_code)).informerMsgs
        = [⟨slave_id, WorkerStatus.completed⟩])
    ∧ (∀ e : String,
      (Tapped_Executor.run slave_id chunks (Except.error e)).informerMsgs
        = [⟨slave_id, WorkerStatus.failed e⟩])
    ∧ (∀ engine : Except String Int,
      (Tapped_Executor.run slave_id chunks engine).socketsClosed = true) := by
  refine ⟨fun _ => rfl, fun _ => rfl, fun engine => ?_⟩
  cases engine <;> rfl

/-! ### C5, C7, C10: the cancellation path -/

/-- C7: cancelling an identity that is not in the queue sends the `aborted`
notification, raises no error, and changes nothing else — the queue (and every
other global) is untouched. -/
theorem c7_cancel_absent_identity (cell_id : String) (killOk : Bool) (s : SupState)
    (h : containsKey s.queue cell_id = false) :
    cancel_workflow cell_id killOk s
      = ({ s with msgs := s.msgs ++ [.aborted cell_id] }, none) := by
  simp [cancel_workflow, h]

/-- C7 witness: cancelling `"Z"` on the empty initial queue. -/
theorem c7_cancel_absent_identity_witness :
    cancel_workflow "Z" true initState
      = ({ initState with msgs := [FrontendMsg.aborted "Z"] }, none) :=
  c7_cancel_absent_identity "Z" true initState (by decide)

/-- C5: cancelling a running worker that is still alive but whose process still
exists after the tree-kill and terminate (`killOk = false`) raises
`RuntimeError('Failed to kill workflow')` instead of silently succeeding; the
entry is not popped (the raise precedes the pop). -/
theorem c5_kill_failure_raises (cell_id : String) (pid : Nat) (s : SupState)
    (hl : List.lookup cell_id s.queue = some (.proc pid))
    (ha : aliveIn s.dead pid = true) :
    cancel_workflow cell_id false s
      = ({ s with msgs := s.msgs ++ [.aborted cell_id] },
         some "Failed to kill workflow") := by
  have hc : containsKey s.queue cell_id = true := containsKey_of_lookup hl
  simp [cancel_workflow, hc, hl, ha]

/-- C5 witness: a queue holding the running worker `("A", pid 0)` whose process
survives the kill attempt. -/
theorem c5_kill_failure_raises_witness :
    cancel_workflow "A" false
        { queue := [("A", Entry.proc 0)], envConfig := ⟨"", 0⟩, dead := [],
          nextPid := 1, msgs := [] }
      = ({ queue := [("A", Entry.proc 0)], envConfig := ⟨"", 0⟩, dead := [],
           nextPid := 1, msgs := [FrontendMsg.aborted "A"] },
         some "Failed to kill workflow") :=
  c5_kill_failure_raises "A" 0 _ (by decide) (by decide)

/-- C10: cancelling an identity whose entry is a worker that has already exited
sends `aborted`, pops the entry, and returns normally; no termination is
attempted (the result does not depend on `killOk`, and the set of exited
processes is unchanged). -/
theorem c10_cancel_dead_worker (cell_id : String) (pid : Nat) (killOk : Bool)
    (s : SupState)
    (hl : List.lookup cell_id s.queue = some (.proc pid))
    (ha : aliveIn s.dead pid = false) :
    cancel_workflow cell_id killOk s
      = ({ s with
            queue := odPop s.queue cell_id,
            msgs := s.msgs ++ [.aborted cell_id] }, none) := by
  have hc : containsKey s.queue cell_id = true := containsKey_of_lookup hl
  simp [cancel_workflow, hc, hl, ha]

/-- C10 witness: cancelling `"A"` whose worker (pid 0) has already exited. -/
theorem c10_cancel_dead_worker_witness :
    cancel_workflow "A" true
        { queue := [("A", Entry.proc 0)], envConfig := ⟨"", 0⟩, dead := [0],
          nextPid := 1, msgs := [] }
      = ({ queue := [], envConfig := ⟨"", 0⟩, dead := [0],
           nextPid := 1, msgs := [FrontendMsg.aborted "A"] }, none) :=
  c10_cancel_dead_worker "A" 0 true _ (by decide) (by decide)

/-! ### C6: promotion (spawn) failure -/

lemma odSet_append_of_fresh {q : List (String × Entry)} {k : String}
    (h : containsKey q k = false) (v : Entry) : odSet q k v = q ++ [(k, v)] := by
  induction q with
  | nil => rfl
  | cons p t ih =>
    simp only [containsKey, List.any_cons, Bool.or_eq_false_iff] at h
    rw [odSet, if_neg (by simp [h.1]), ih h.2]
    rfl

lemma pruneQueue_all_tuples {q : List (String × Entry)}
    (h : ∀ p ∈ q, isTuple p.snd = true) (dead : List Nat) :
    pruneQueue dead q = q := by
  induction q with
  | nil => rfl
  | cons p t ih =>
    have hp : isTuple p.snd = true := h p (List.mem_cons_self p t)
    have hkeep : (match p.snd with
        | Entry.tuple _ _ => true
        | Entry.proc pid => aliveIn dead pid) = true := by
      cases hsnd : p.snd with
      | tuple c a => rfl
      | proc pid => rw [hsnd] at hp; simp [isTuple] at hp
    rw [pruneQueue, List.filter_cons, if_pos hkeep]
    have := ih (fun x hx => h x (List.mem_cons_of_mem p hx))
    rw [pruneQueue] at this
    rw [this]

/-- C6 counterexample: submitting `"X"` to the empty queue with the worker spawn
failing (`spawnOk = false`) does not produce a `failed` status (no frontend
message is sent at all) and does not remove the entry — `"X"` stays queued as a
pending tuple while the exception propagates.  The claim that submit surfaces a
spawn failure as a `failed` status and removes the entry is therefore false. -/
theorem c6_counterexample :
    (run_sos_workflow "X" "c" "r" false true initState).snd
        = some "Tapped_Executor.start failed"
    ∧ List.lookup "X" (run_sos_workflow "X" "c" "r" false true initState).fst.queue
        = some (Entry.tuple "c" "r")
    ∧ (run_sos_workflow "X" "c" "r" false true initState).fst.msgs = [] := by
  decide

/-- C6 amended: if launching the worker for the promoted head fails, the
exception propagates to the submit caller; no status message of any kind is
sent by that call, and the submitted entry remains in the queue as a pending
tuple at the tail (stated here for a fresh identity over a queue of pending
tuples, the situation in which the freshly promoted head can fail to spawn). -/
theorem c6_amended_spawn_failure_propagates (cell_id code raw_args : String)
    (killOk : Bool) (s : SupState)
    (hfresh : containsKey s.queue cell_id = false)
    (htup : ∀ p ∈ s.queue, isTuple p.snd = true) :
    (run_sos_workflow cell_id code raw_args false killOk s).snd
        = some "Tapped_Executor.start failed"
    ∧ (run_sos_workflow cell_id code raw_args false killOk s).fst.queue
        = s.queue ++ [(cell_id, Entry.tuple code raw_args)]
    ∧ (run_sos_workflow cell_id code raw_args false killOk s).fst.msgs = s.msgs := by
  have hq : pruneQueue s.dead (odSet s.queue cell_id (.tuple code raw_args))
      = s.queue ++ [(cell_id, Entry.tuple code raw_args)] := by
    rw [odSet_append_of_fresh hfresh]
    apply pruneQueue_all_tuples
    intro p hp
    rcases List.mem_append.mp hp with h | h
    · exact htup p h
    · rcases List.mem_singleton.mp h with rfl
      rfl
  rw [run_sos_workflow]
  rw [if_neg (by simp [hfresh])]
  cases hsq : s.queue with
  | nil =>
    rw [hsq] at hq
    simp only [hsq] at hq ⊢
    simp [hq]
  | cons p t =>
    rw [hsq] at hq
    simp only [hsq] at hq ⊢
    have hp1 : isTuple p.snd = true := by
      apply htup
      rw [hsq]
      exact List.mem_cons_self p t
    cases hpsnd : p.snd with
    | tuple c0 a0 =>
      have hp' : p = (p.fst, Entry.tuple c0 a0) := by
        rw [← hpsnd]
      rw [hp'] at hq ⊢
      simp [hq]
    | proc pid =>
      rw [hpsnd] at hp1
      simp [isTuple] at hp1

/-- C6 amended witness: the empty initial queue with identity `"X"`. -/
theorem c6_amended_spawn_failure_propagates_witness :
    (run_sos_workflow "X" "c" "r" false true initState).snd
        = some "Tapped_Executor.start failed"
    ∧ (run_sos_workflow "X" "c" "r" false true initState).fst.queue
        = [("X", Entry.tuple "c" "r")]
    ∧ (run_sos_workflow "X" "c" "r" false true initState).fst.msgs = [] :=
  c6_amended_spawn_failure_propagates "X" "c" "r" true initState (by decide)
    (fun p hp => absurd hp (List.not_mem_nil p))

lemma run_normal_reports_position (cell_id code raw_args : String)
    (spawnOk killOk : Bool) (s : SupState) :
    (run_sos_workflow cell_id code raw_args spawnOk killOk s).snd.isSome = true
    ∨ (run_sos_workflow cell_id code raw_args spawnOk killOk s).fst.msgs.getLast?
        = some (.pending cell_id
            (keyIdx (run_sos_workflow cell_id code raw_args spawnOk killOk s).fst.queue
              cell_id + 1)) := by
  unfold run_sos_workflow
  split
  case _ s1 e heq => exact Or.inl rfl
  case _ s1 heq =>
    dsimp only
    split
    case _ heq2 => exact absurd heq2 (prune_odSet_tuple_ne_nil _ _ _ _ _)
    case _ hcid hitem rest heq2 =>
      cases hitem with
      | tuple c0 a0 =>
        dsimp only
        by_cases hso : spawnOk
        · rw [if_pos hso]
          right
          simp [List.getLast?_concat]
        · rw [if_neg hso]
          exact Or.inl rfl
      | proc pid =>
        right
        simp [List.getLast?_concat]

/-- C8: whenever `run_sos_workflow` returns normally, the last frontend message it
sent is the `pending` status reporting the 1-based position of the submitted
identity in the resulting queue; in particular submitting the fresh identities
`X`, `Y`, `Z` in order (none finishing) reports positions 1, 2 and 3. -/
theorem c8_position_reporting :
    (∀ (cell_id code raw_args : String) (spawnOk killOk : Bool) (s : SupState),
      (run_sos_workflow cell_id code raw_args spawnOk killOk s).snd = none →
      (run_sos_workflow cell_id code raw_args spawnOk killOk s).fst.msgs.getLast?
        = some (.pending cell_id
            (keyIdx (run_sos_workflow cell_id code raw_args spawnOk killOk s).fst.queue
              cell_id + 1)))
    ∧ (run_sos_workflow "Z" "cz" "" true true
        (run_sos_workflow "Y" "cy" "" true true
          (run_sos_workflow "X" "cx" "" true true initState).fst).fst).fst.msgs
      = [.pending "X" 1, .pending "Y" 2, .pending "Z" 3] := by
  constructor
  · intro cell_id code raw_args spawnOk killOk s hnone
    rcases run_normal_reports_position cell_id code raw_args spawnOk killOk s with h | h
    · rw [hnone] at h
      exact absurd h (by simp)
    · exact h
  · decide

/-- C8 witness: submitting `"X"` to the empty queue reports position
`keyIdx (resulting queue) "X" + 1`. -/
theorem c8_position_reporting_witness :
    (run_sos_workflow "X" "cx" "" true true initState).fst.msgs.getLast?
      = some (.pending "X"
          (keyIdx (run_sos_workflow "X" "cx" "" true true initState).fst.queue "X" + 1)) :=
  c8_position_reporting.1 "X" "cx" "" true true initState (by decide)

/-- C3 counterexample: submitting `A`, `B`, then `A` again (before the first `A`
finishes) leaves the queue ordered `[B, A]` — the second submission of `A` sits at
the tail (index 1), not at `A`'s original head position (index 0): the cancel
performed for the resubmission pops `A` and the re-insertion appends at the tail. -/
theorem c3_counterexample :
    ((run_sos_workflow "A" "c3" "r3" true true
        (run_sos_workflow "B" "c2" "r2" true true
          (run_sos_workflow "A" "c1" "r1" true true initState).fst).fst).fst.queue.map
      Prod.fst = ["B", "A"])
    ∧ keyIdx
        (run_sos_workflow "A" "c3" "r3" true true
          (run_sos_workflow "B" "c2" "r2" true true
            (run_sos_workflow "A" "c1" "r1" true true initState).fst).fst).fst.queue
        "A" ≠ 0 := by
  decide

/-- C3 amended: submitting identities `a`, `b`, `a` (with the second `a` submitted
before the first `a` finishes) cancels the first `a` worker — its process (pid 0)
is killed and an `aborted` notice for `a` is sent — and re-queues `a` at the
*tail*: the resulting queue is `[b (now running), a (pending)]`, so the second
submission of `a` does not keep `a`'s original position. -/
theorem c3_amended_resubmit_moves_to_tail (a b c1 r1 c2 r2 c3 r3 : String)
    (hab : a ≠ b) :
    ((run_sos_workflow a c3 r3 true true
        (run_sos_workflow b c2 r2 true true
          (run_sos_workflow a c1 r1 true true initState).fst).fst).fst.queue
      = [(b, Entry.proc 1), (a, Entry.tuple c3 r3)])
    ∧ (run_sos_workflow a c3 r3 true true
        (run_sos_workflow b c2 r2 true true
          (run_sos_workflow a c1 r1 true true initState).fst).fst).fst.dead = [0]
    ∧ FrontendMsg.aborted a ∈
        (run_sos_workflow a c3 r3 true true
          (run_sos_workflow b c2 r2 true true
            (run_sos_workflow a c1 r1 true true initState).fst).fst).fst.msgs := by
  have hba : (b == a) = false := beq_eq_false_iff_ne.mpr (Ne.symm hab)
  have hab' : (a == b) = false := beq_eq_false_iff_ne.mpr hab
  have h1 : (run_sos_workflow a c1 r1 true true initState).fst
      = { queue := [(a, Entry.proc 0)], envConfig := ⟨a, 0⟩, dead := [],
          nextPid := 1, msgs := [.pending a 1] } := by
    simp [run_sos_workflow, cancel_workflow, odSet, odPop, pruneQueue, containsKey,
      aliveIn, keyIdx, initState, List.findIdx_cons]
  rw [h1]
  have h2 : (run_sos_workflow b c2 r2 true true
      { queue := [(a, Entry.proc 0)], envConfig := ⟨a, 0⟩, dead := [],
        nextPid := 1, msgs := [.pending a 1] })
      = ({ queue := [(a, Entry.proc 0), (b, Entry.tuple c2 r2)], envConfig := ⟨a, 0⟩,
           dead := [], nextPid := 1,
           msgs := [.pending a 1, .pending b 2] }, none) := by
    simp [run_sos_workflow, cancel_workflow, odSet, odPop, pruneQueue, containsKey,
      aliveIn, keyIdx, hba, hab', List.findIdx_cons]
  rw [h2]
  simp [run_sos_workflow, cancel_workflow, odSet, odPop, pruneQueue, containsKey,
    aliveIn, keyIdx, hba, hab', List.lookup, List.findIdx_cons]

/-- C3 amended witness: the concrete trace `A`, `B`, `A`. -/
theorem c3_amended_resubmit_moves_to_tail_witness :
    ((run_sos_workflow "A" "c3" "r3" true true
        (run_sos_workflow "B" "c2" "r2" true true
          (run_sos_workflow "A" "c1" "r1" true true initState).fst).fst).fst.queue
      = [("B", Entry.proc 1), ("A", Entry.tuple "c3" "r3")])
    ∧ (run_sos_workflow "A" "c3" "r3" true true
        (run_sos_workflow "B" "c2" "r2" true true
          (run_sos_workflow "A" "c1" "r1" true true initState).fst).fst).fst.dead = [0]
    ∧ FrontendMsg.aborted "A" ∈
        (run_sos_workflow "A" "c3" "r3" true true
          (run_sos_workflow "B" "c2" "r2" true true
            (run_sos_workflow "A" "c1" "r1" true true initState).fst).fst).fst.msgs :=
  c3_amended_resubmit_moves_to_tail "A" "B" "c1" "r1" "c2" "r2" "c3" "r3" (by decide)

/-! ### C9: payload immutability -/

/-- C9 counterexample: queue `A` (promoted, global `slave_id := "A"`), then `B` and
`C` as pending entries; `C`'s observed payload carries config `slave_id = "A"`.
After `A`'s worker exits, a later submit of the fresh identity `D` promotes `B`,
which sets the shared global config's `slave_id` to `"B"` — and since `C`'s queued
tuple holds a reference to that global dict rather than a snapshot, `C`'s payload
has changed even though no operation touched `C`. -/
theorem c9_counterexample :
    pendingPayload
        (run_sos_workflow "C" "c3" "r3" true true
          (run_sos_workflow "B" "c2" "r2" true true
            (run_sos_workflow "A" "c1" "r1" true true initState).fst).fst).fst "C"
      = some ("c3", "r3", ⟨"A", 0⟩)
    ∧ pendingPayload
        (run_sos_workflow "D" "c4" "r4" true true
          { (run_sos_workflow "C" "c3" "r3" true true
              (run_sos_workflow "B" "c2" "r2" true true
                (run_sos_workflow "A" "c1" "r1" true true initState).fst).fst).fst
            with dead := [0] }).fst "C"
      = some ("c3", "r3", ⟨"B", 0⟩)
    ∧ pendingPayload
        (run_sos_workflow "D" "c4" "r4" true true
          { (run_sos_workflow "C" "c3" "r3" true true
              (run_sos_workflow "B" "c2" "r2" true true
                (run_sos_workflow "A" "c1" "r1" true true initState).fst).fst).fst
            with dead := [0] }).fst "C"
      ≠ pendingPayload
          (run_sos_workflow "C" "c3" "r3" true true
            (run_sos_workflow "B" "c2" "r2" true true
              (run_sos_workflow "A" "c1" "r1" true true initState).fst).fst).fst "C" := by
  decide

lemma lookup_odSet_ne {q : List (String × Entry)} {id k : String} (h : id ≠ k)
    (v : Entry) : List.lookup id (odSet q k v) = List.lookup id q := by
  have hidk : (id == k) = false := beq_eq_false_iff_ne.mpr h
  induction q with
  | nil => simp [odSet, List.lookup, hidk]
  | cons p t ih =>
    obtain ⟨pk, pv⟩ := p
    rw [odSet]
    by_cases hpk : (pk == k) = true
    · have : pk = k := eq_of_beq hpk
      subst this
      simp [List.lookup, hidk]
    · simp only [Bool.not_eq_true] at hpk
      rw [if_neg (by simp [hpk])]
      rw [List.lookup, List.lookup]
      cases hidp : (id == pk) with
      | true => rfl
      | false => exact ih

lemma lookup_odPop_ne {q : List (String × Entry)} {id k : String} (h : id ≠ k) :
    List.lookup id (odPop q k) = List.lookup id q := by
  have hidk : (id == k) = false := beq_eq_false_iff_ne.mpr h
  induction q with
  | nil => rfl
  | cons p t ih =>
    obtain ⟨pk, pv⟩ := p
    rw [odPop]
    by_cases hpk : (pk == k) = true
    · have : pk = k := eq_of_beq hpk
      subst this
      simp [List.lookup, hidk]
    · simp only [Bool.not_eq_true] at hpk
      rw [if_neg (by simp [hpk])]
      rw [List.lookup, List.lookup]
      cases hidp : (id == pk) with
      | true => rfl
      | false => exact ih

lemma lookup_prune_tuple {q : List (String × Entry)} {dead : List Nat}
    {id c a : String} (h : List.lookup id q = some (.tuple c a)) :
    List.lookup id (pruneQueue dead q) = some (.tuple c a) := by
  induction q with
  | nil => simp [List.lookup] at h
  | cons p t ih =>
    obtain ⟨pk, pv⟩ := p
    rw [List.lookup] at h
    cases hidp : (id == pk) with
    | true =>
      rw [hidp] at h
      have hpv : pv = Entry.tuple c a := by injection h
      subst hpv
      rw [pruneQueue, List.filter_cons, if_pos rfl, List.lookup, hidp]
    | false =>
      rw [hidp] at h
      rw [pruneQueue, List.filter_cons]
      split
      · rw [List.lookup, hidp]
        exact ih h
      · exact ih h

lemma cancel_queue_cases (cell_id : String) (killOk : Bool) (s : SupState) :
    (cancel_workflow cell_id killOk s).fst.queue = s.queue
    ∨ (cancel_workflow cell_id killOk s).fst.queue = odPop s.queue cell_id := by
  unfold cancel_workflow
  dsimp only
  split
  · split
    · exact Or.inl rfl
    · split
      · exact Or.inr rfl
      · split
        · split
          · exact Or.inr rfl
          · exact Or.inl rfl
        · exact Or.inr rfl
  · exact Or.inl rfl

lemma lookup_cancel_ne {id cid : String} (h : id ≠ cid) (ko : Bool) (s : SupState) :
    List.lookup id (cancel_workflow cid ko s).fst.queue = List.lookup id s.queue := by
  rcases cancel_queue_cases cid ko s with hq | hq <;> rw [hq]
  exact lookup_odPop_ne h

/-- C9 amended: the code and raw-argument components of a queued pending entry are
never altered by a submit or cancel of a *different* identity — after such a call
the entry is either still pending with the same code and arguments, or (for a
submit that promoted it to the head) it has become a running worker.  The
configuration component, by contrast, is not immutable: it is a shared reference
to the live global `env.config`, which a later promotion mutates
(`c9_counterexample`). -/
theorem c9_amended_code_args_immutable (s : SupState)
    (id other code raw_args c a : String) (spawnOk killOk : Bool)
    (hne : id ≠ other)
    (hp : List.lookup id s.queue = some (.tuple c a)) :
    (List.lookup id (run_sos_workflow other code raw_args spawnOk killOk s).fst.queue
        = some (.tuple c a)
      ∨ ∃ pid, List.lookup id
          (run_sos_workflow other code raw_args spawnOk killOk s).fst.queue
          = some (.proc pid))
    ∧ List.lookup id (cancel_workflow other killOk s).fst.queue
        = some (.tuple c a) := by
  constructor
  · unfold run_sos_workflow
    split
    case _ s1 e heq =>
      left
      by_cases hc : containsKey s.queue other = true
      · rw [if_pos hc] at heq
        have hs1 : s1 = (cancel_workflow other killOk s).fst := by rw [heq]
        rw [hs1, lookup_cancel_ne hne]
        exact hp
      · rw [if_neg hc] at heq
        exact absurd (congrArg Prod.snd heq) (by simp)
    case _ s1 heq =>
      have hs1 : List.lookup id s1.queue = some (.tuple c a) := by
        by_cases hc : containsKey s.queue other = true
        · rw [if_pos hc] at heq
          have : s1 = (cancel_workflow other killOk s).fst := by rw [heq]
          rw [this, lookup_cancel_ne hne]
          exact hp
        · rw [if_neg hc] at heq
          have hss : s = s1 := by
            have := congrArg Prod.fst heq
            simpa using this
          rw [← hss]
          exact hp
      have hq2 : List.lookup id
          (pruneQueue s1.dead (odSet s1.queue other (.tuple code raw_args)))
          = some (.tuple c a) :=
        lookup_prune_tuple (by rw [lookup_odSet_ne hne]; exact hs1)
      dsimp only
      split
      case _ heq2 =>
        rw [heq2] at hq2
        exact absurd hq2 (by simp [List.lookup])
      case _ hcid hitem rest heq2 =>
        rw [heq2] at hq2
        cases hitem with
        | tuple c0 a0 =>
          dsimp only
          rw [heq2]
          by_cases hso : spawnOk
          · rw [if_pos hso]
            by_cases hid : id = hcid
            · right
              subst hid
              refine ⟨s1.nextPid, ?_⟩
              rw [odSet, if_pos (by simp)]
              simp [List.lookup]
            · left
              have hidh : (id == hcid) = false := beq_eq_false_iff_ne.mpr hid
              rw [odSet, if_pos (by simp)]
              simp only [List.lookup, hidh] at hq2 ⊢
              exact hq2
          · rw [if_neg hso]
            exact Or.inl hq2
        | proc pid =>
          dsimp only
          rw [heq2]
          exact Or.inl hq2
  · rw [lookup_cancel_ne hne]
    exact hp

/-- C9 amended witness: a queue holding the pending entry `("C", ("c", "r"))` is
untouched (code and arguments) by submitting and by cancelling `"D"`. -/
theorem c9_amended_code_args_immutable_witness :
    (List.lookup "C" (run_sos_workflow "D" "cd" "rd" true true
        { queue := [("C", Entry.tuple "c" "r")], envConfig := ⟨"", 0⟩, dead := [],
          nextPid := 0, msgs := [] }).fst.queue
        = some (Entry.tuple "c" "r")
      ∨ ∃ pid, List.lookup "C" (run_sos_workflow "D" "cd" "rd" true true
          { queue := [("C", Entry.tuple "c" "r")], envConfig := ⟨"", 0⟩, dead := [],
            nextPid := 0, msgs := [] }).fst.queue
          = some (Entry.proc pid))
    ∧ List.lookup "C" (cancel_workflow "D" true
        { queue := [("C", Entry.tuple "c" "r")], envConfig := ⟨"", 0⟩, dead := [],
          nextPid := 0, msgs := [] }).fst.queue
        = some (Entry.tuple "c" "r") :=
  c9_amended_code_args_immutable _ "C" "D" "cd" "rd" "c" "r" true true
    (by decide) (by decide)

/-! ### C1: the single-flight invariant -/

/-- All entries after the head are pending tuples: the inductive invariant behind
the single-flight property. -/
def tailTuples (q : List (String × Entry)) : Prop :=
  ∀ p ∈ q.tail, isTuple p.snd = true

lemma mem_odPop {q : List (String × Entry)} {k : String} {p : String × Entry}
    (h : p ∈ odPop q k) : p ∈ q := by
  induction q with
  | nil => simp [odPop] at h
  | cons x t ih =>
    rw [odPop] at h
    by_cases hx : (x.fst == k) = true
    · rw [if_pos hx] at h
      exact List.mem_cons_of_mem x h
    · rw [if_neg hx] at h
      rcases List.mem_cons.mp h with rfl | h1
      · exact List.mem_cons_self p t
      · exact List.mem_cons_of_mem x (ih h1)

lemma mem_odSet {q : List (String × Entry)} {k : String} {v p : _}
    (h : p ∈ odSet q k v) : p ∈ q ∨ p = (k, v) := by
  induction q with
  | nil =>
    right
    simpa [odSet] using h
  | cons x t ih =>
    rw [odSet] at h
    by_cases hx : (x.fst == k) = true
    · rw [if_pos hx] at h
      rcases List.mem_cons.mp h with rfl | h1
      · exact Or.inr rfl
      · exact Or.inl (List.mem_cons_of_mem x h1)
    · rw [if_neg hx] at h
      rcases List.mem_cons.mp h with rfl | h1
      · exact Or.inl (List.mem_cons_self p t)
      · rcases ih h1 with h2 | h2
        · exact Or.inl (List.mem_cons_of_mem x h2)
        · exact Or.inr h2

lemma tailTuples_odSet_tuple {q : List (String × Entry)} {k c a : String}
    (h : tailTuples q) : tailTuples (odSet q k (.tuple c a)) := by
  cases q with
  | nil =>
    intro p hp
    simp [odSet] at hp
  | cons x t =>
    rw [odSet]
    by_cases hx : (x.fst == k) = true
    · rw [if_pos hx]
      intro p hp
      exact h p hp
    · rw [if_neg hx]
      intro p hp
      rcases mem_odSet hp with h1 | rfl
      · exact h p h1
      · rfl

lemma tailTuples_odPop {q : List (String × Entry)} {k : String}
    (h : tailTuples q) : tailTuples (odPop q k) := by
  cases q with
  | nil =>
    intro p hp
    simp [odPop] at hp
  | cons x t =>
    rw [odPop]
    by_cases hx : (x.fst == k) = true
    · rw [if_pos hx]
      intro p hp
      exact h p (List.tail_subset t hp)
    · rw [if_neg hx]
      intro p hp
      exact h p (mem_odPop hp)

lemma tailTuples_prune {dead : List Nat} {q : List (String × Entry)}
    (h : tailTuples q) : tailTuples (pruneQueue dead q) := by
  cases q with
  | nil =>
    intro p hp
    simp [pruneQueue] at hp
  | cons x t =>
    rw [pruneQueue, List.filter_cons]
    split
    · intro p hp
      exact h p (List.mem_of_mem_filter hp)
    · intro p hp
      exact h p (List.mem_of_mem_filter (List.tail_subset _ hp))

lemma tailTuples_cancel (cid : String) (ko : Bool) (s : SupState)
    (h : tailTuples s.queue) : tailTuples (cancel_workflow cid ko s).fst.queue := by
  rcases cancel_queue_cases cid ko s with hq | hq <;> rw [hq]
  · exact h
  · exact tailTuples_odPop h

lemma tailTuples_run (cid c a : String) (so ko : Bool) (s : SupState)
    (h : tailTuples s.queue) :
    tailTuples (run_sos_workflow cid c a so ko s).fst.queue := by
  unfold run_sos_workflow
  split
  case _ s1 e heq =>
    by_cases hc : containsKey s.queue cid = true
    · rw [if_pos hc] at heq
      have hs1 : s1 = (cancel_workflow cid ko s).fst := by rw [heq]
      dsimp only
      rw [hs1]
      exact tailTuples_cancel cid ko s h
    · rw [if_neg hc] at heq
      exact absurd (congrArg Prod.snd heq) (by simp)
  case _ s1 heq =>
    have hs1 : tailTuples s1.queue := by
      by_cases hc : containsKey s.queue cid = true
      · rw [if_pos hc] at heq
        have : s1 = (cancel_workflow cid ko s).fst := by rw [heq]
        rw [this]
        exact tailTuples_cancel cid ko s h
      · rw [if_neg hc] at heq
        have hss : s = s1 := by
          have := congrArg Prod.fst heq
          simpa using this
        rw [← hss]
        exact h
    have hq2 : tailTuples (pruneQueue s1.dead (odSet s1.queue cid (.tuple c a))) :=
      tailTuples_prune (tailTuples_odSet_tuple hs1)
    dsimp only
    split
    case _ heq2 => exact hq2
    case _ hcid hitem rest heq2 =>
      cases hitem with
      | tuple c0 a0 =>
        dsimp only
        rw [heq2] at hq2
        rw [heq2]
        by_cases hso : so = true
        · rw [if_pos hso]
          rw [odSet, if_pos (by simp)]
          intro p hp
          exact hq2 p hp
        · rw [if_neg hso]
          exact hq2
      | proc pid =>
        dsimp only
        exact hq2

lemma step_tailTuples {s t : SupState} (h : tailTuples s.queue) (hs : Step s t) :
    tailTuples t.queue := by
  cases hs with
  | submit cid c a so ko => exact tailTuples_run cid c a so ko s h
  | cancel cid ko => exact tailTuples_cancel cid ko s h
  | workerExit pid => exact h

lemma reachable_tailTuples {s : SupState} (h : Reachable s) : tailTuples s.queue := by
  induction h with
  | init =>
    intro p hp
    simp [initState] at hp
  | step _ hs ih => exact step_tailTuples ih hs

lemma tailTuples_countP {q : List (String × Entry)} (h : tailTuples q) :
    q.countP (fun p => isProc p.snd) ≤ 1
    ∧ ∀ p ∈ q, isProc p.snd = true → q.head? = some p := by
  cases q with
  | nil => simp
  | cons x t =>
    have h0 : t.countP (fun p => isProc p.snd) = 0 := by
      rw [List.countP_eq_zero]
      intro p hp
      have htp : isTuple p.snd = true := h p hp
      cases hsnd : p.snd with
      | tuple c0 a0 => simp [isProc]
      | proc pid =>
        rw [hsnd] at htp
        simp [isTuple] at htp
    constructor
    · rw [List.countP_cons, h0]
      split <;> simp
    · intro p hp hproc
      rcases List.mem_cons.mp hp with rfl | hmem
      · rfl
      · have htp : isTuple p.snd = true := h p hmem
        cases hsnd : p.snd with
        | tuple c0 a0 =>
          rw [hsnd] at hproc
          simp [isProc] at hproc
        | proc pid =>
          rw [hsnd] at htp
          simp [isTuple] at htp

/-- C1: in every state reachable by any sequence of submit / cancel calls (with
workers free to exit in between), at most one queue entry holds a running worker
handle — all others are pending tuples — and any entry holding a running worker
is the head of the queue (hence in particular the first among the entries that
are not yet finished). -/
theorem c1_single_flight_invariant (s : SupState) (h : Reachable s) :
    s.queue.countP (fun p => isProc p.snd) ≤ 1
    ∧ ∀ p ∈ s.queue, isProc p.snd = true → s.queue.head? = some p :=
  tailTuples_countP (reachable_tailTuples h)

/-- C1 witness: the state reached by submitting `"X"` to the empty queue is
reachable and satisfies the running-worker count bound. -/
theorem c1_single_flight_invariant_witness :
    (run_sos_workflow "X" "c" "" true true initState).fst.queue.countP
        (fun p => isProc p.snd) ≤ 1 :=
  (c1_single_flight_invariant _
    (Reachable.step Reachable.init (Step.submit initState "X" "c" "" true true))).1
